import Mathlib

open scoped List

/-!
Shallow embedding of the keyword-matching analysis scripts of this
repository (bilibili/q1.py, bilibili/bilibili_data.py,
xiaohongshu/xiaohongshu_data.py, weibo/weibo_analyse.py,
weibo/user_portrait_analysis.py), together with theorems settling the
specification claims about them.

Strings carried by the rows are modelled by Lean `String`; Python's
substring operator `w in s` is modelled by `containsSub`, Python's
`str.strip` by `pyStrip`, machine floats by `ℚ` (exact arithmetic) except
for the `StandardScaler` step which needs a square root and is modelled
over `ℝ`.
-/

/-- Decides whether the character list `w` is an initial segment of `s`.
Helper for the model of Python's substring operator. -/
def isStart : List Char → List Char → Bool
  | [], _ => true
  | _ :: _, [] => false
  | a :: w, b :: s => a == b && isStart w s

/-- Decides whether `w` occurs as a contiguous block somewhere in `s`. -/
def subAt (w : List Char) : List Char → Bool
  | [] => w.isEmpty
  | c :: s => isStart w (c :: s) || subAt w s

/-- Model of Python's `w in s` on strings: `w` occurs as a substring of `s`. -/
def containsSub (s w : String) : Bool :=
  subAt w.data s.data

theorem isStart_mem {w s : List Char} (h : isStart w s = true) :
    ∀ c ∈ w, c ∈ s := by
  induction w generalizing s with
  | nil => intro c hc; cases hc
  | cons a w ih =>
    cases s with
    | nil => simp [isStart] at h
    | cons b s =>
      simp only [isStart, Bool.and_eq_true, beq_iff_eq] at h
      intro c hc
      rcases List.mem_cons.1 hc with rfl | hc
      · exact h.1 ▸ List.mem_cons_self _ _
      · exact List.mem_cons_of_mem _ (ih h.2 c hc)

theorem subAt_mem {w s : List Char} (h : subAt w s = true) :
    ∀ c ∈ w, c ∈ s := by
  induction s with
  | nil =>
    intro c hc
    simp only [subAt, List.isEmpty_iff] at h
    subst h; cases hc
  | cons b s ih =>
    simp only [subAt, Bool.or_eq_true] at h
    rcases h with h | h
    · exact isStart_mem h
    · exact fun c hc => List.mem_cons_of_mem _ (ih h c hc)

/-- The characters Python's `str.strip()` removes (ASCII whitespace). -/
def pySpace (c : Char) : Bool :=
  c == ' ' || c == '\t' || c == '\n' || c == '\r' || c == '\x0b' || c == '\x0c'

/-- Model of Python's `str.strip()`: drop whitespace from both ends. -/
def pyStrip (l : List Char) : List Char :=
  ((l.dropWhile pySpace).reverse.dropWhile pySpace).reverse

theorem pyStrip_eq_nil {l : List Char} (h : pyStrip l = []) :
    ∀ c ∈ l, pySpace c = true := by
  unfold pyStrip at h
  rw [List.reverse_eq_nil_iff, List.dropWhile_eq_nil_iff] at h
  intro c hc
  have hl : l.takeWhile pySpace ++ l.dropWhile pySpace = l :=
    List.takeWhile_append_dropWhile pySpace l
  rw [← hl] at hc
  rcases List.mem_append.1 hc with hc | hc
  · exact List.mem_takeWhile_imp hc
  · exact h c (List.mem_reverse.2 hc)

/-- Model of `sum(1 for w in ws if w in text)`: fold over the word list,
incrementing the accumulator for each word occurring in `text`. -/
def countHits (ws : List String) (text : String) : Nat :=
  ws.foldl (fun acc w => if containsSub text w then acc + 1 else acc) 0

theorem countHits_go (ws : List String) (text : String) (n : Nat) :
    ws.foldl (fun acc w => if containsSub text w then acc + 1 else acc) n =
      n + (ws.filter (fun w => containsSub text w)).length := by
  induction ws generalizing n with
  | nil => simp
  | cons w ws ih =>
    by_cases h : containsSub text w = true
    · simp [List.foldl_cons, List.filter_cons, h, ih, Nat.add_comm, Nat.add_assoc,
        Nat.add_left_comm]
    · simp only [Bool.not_eq_true] at h
      simp [List.foldl_cons, List.filter_cons, h, ih]

theorem countHits_eq (ws : List String) (text : String) :
    countHits ws text = (ws.filter (fun w => containsSub text w)).length := by
  simpa using countHits_go ws text 0

namespace WeiboAnalyse

/-- Source: weibo_analyse.py line 207. -/
def positive_words : List String :=
  ["顺利", "开心", "希望", "成功", "上岸", "幸运", "期待"]

/-- Source: weibo_analyse.py line 208. -/
def negative_words : List String :=
  ["焦虑", "难受", "崩溃", "害怕", "迷茫", "失败", "压力", "emo"]

/-- Source: weibo_analyse.py lines 210-213 (`sentiment_score`). -/
def sentiment_score (text : String) : Int :=
  (countHits positive_words text : Int) - (countHits negative_words text : Int)

end WeiboAnalyse

namespace UserPortrait

/-- Source: user_portrait_analysis.py line 305. -/
def positive_words : List String :=
  ["顺利", "开心", "希望", "成功", "上岸", "幸运", "期待", "加油", "好运"]

/-- Source: user_portrait_analysis.py line 306. -/
def negative_words : List String :=
  ["焦虑", "难受", "崩溃", "害怕", "迷茫", "失败", "压力", "emo", "担心", "紧张"]

/-- Source: user_portrait_analysis.py lines 308-313 (`sentiment_score`);
`none` stands for a non-string cell, for which the function returns 0. -/
def sentiment_score : Option String → Int
  | none => 0
  | some t => (countHits positive_words t : Int) - (countHits negative_words t : Int)

end UserPortrait

/-- C1: for every input string, the sentiment score computed by
`sentiment_score` (in both weibo_analyse.py and user_portrait_analysis.py)
equals the number of words of the fixed positive list occurring as
substrings of the string minus the number of words of the fixed negative
list occurring as substrings. -/
theorem c1_sentiment_score_counts (t : String) :
    WeiboAnalyse.sentiment_score t =
      ((WeiboAnalyse.positive_words.filter (fun w => containsSub t w)).length : Int) -
        ((WeiboAnalyse.negative_words.filter (fun w => containsSub t w)).length : Int) ∧
    UserPortrait.sentiment_score (some t) =
      ((UserPortrait.positive_words.filter (fun w => containsSub t w)).length : Int) -
        ((UserPortrait.negative_words.filter (fun w => containsSub t w)).length : Int) := by
  exact ⟨by simp [WeiboAnalyse.sentiment_score, countHits_eq],
    by simp [UserPortrait.sentiment_score, countHits_eq]⟩

theorem contains_eq_false_of_not_mem {k : String} {l : List String}
    (h : k ∉ l) : l.contains k = false := by
  simpa [List.contains] using h

namespace Q1

/-- Source: q1.py lines 38-44 (`scene_map`), an insertion-ordered dict. -/
def scene_map : List (String × List String) :=
  [("情感", ["抽牌建议", "分手 建议"]),
   ("学业", ["考前 建议", "考试 运势"]),
   ("职业", ["面试 建议"]),
   ("日常", ["运势", "水逆"]),
   ("人格/自我", ["MBTI"])]

/-- Loop body of `infer_scene`: first scene whose keyword list has the
keyword as a member (Python's `keyword in kws` on a list), else "其他". -/
def inferSceneGo (keyword : String) : List (String × List String) → String
  | [] => "其他"
  | p :: rest => if p.2.contains keyword then p.1 else inferSceneGo keyword rest

/-- Source: q1.py lines 46-50 (`infer_scene`). -/
def infer_scene (keyword : String) : String :=
  inferSceneGo keyword scene_map

/-- One row of bilibili_videos.csv, restricted to the columns q1.py reads. -/
structure BRow where
  keyword : String
  title : String
deriving DecidableEq

/-- Source: q1.py line 55: `df["scene"] = df["keyword"].apply(infer_scene)`,
modelled as pairing each row with its derived scene column value. -/
def tagTable (t : List BRow) : List (BRow × String) :=
  t.map (fun r => (r, infer_scene r.keyword))

/-- Scene column of the tagged table. -/
def sceneValues (t : List BRow) : List String :=
  (tagTable t).map Prod.snd

/-- Source: q1.py line 67: `df.groupby("scene").size()` — one entry per
distinct scene value, with the number of rows carrying it. -/
def scene_counts (t : List BRow) : List (String × Nat) :=
  (sceneValues t).dedup.map (fun s => (s, (sceneValues t).count s))

/-- Source: q1.py line 68: `scene_stat["count"].sum()`. -/
def scene_total (t : List BRow) : Nat :=
  ((scene_counts t).map (fun p => p.2)).sum

/-- Source: q1.py lines 67-68: the count table extended with the column
`ratio = count / count.sum()`. Each entry is (scene, count, ratio). -/
def scene_stat (t : List BRow) : List (String × Nat × ℚ) :=
  (scene_counts t).map (fun p => (p.1, p.2, (p.2 : ℚ) / (scene_total t : ℚ)))

end Q1

/-- C4 counterexample: "运势" is an entry of scene_map["日常"] and a
substring of the keyword "运势如何", yet `infer_scene` assigns "其他",
because the code tests list membership, not substring occurrence. -/
theorem c4_counterexample :
    containsSub "运势如何" "运势" = true ∧
    ("日常", ["运势", "水逆"]) ∈ Q1.scene_map ∧
    Q1.infer_scene "运势如何" = "其他" := by
  refine ⟨by decide, by decide, by decide⟩

theorem inferScene_eq_of_mem {k S : String} {kws : List String}
    (hmem : (S, kws) ∈ Q1.scene_map) (hk : k ∈ kws) :
    Q1.infer_scene k = S := by
  fin_cases hmem <;> fin_cases hk <;> decide

/-- C4 (amended): `infer_scene` assigns scene S exactly when the keyword is
equal to some entry of scene_map[S] (the lists are pairwise disjoint), and
assigns "其他" exactly when the keyword equals no entry of any list;
membership is exact equality, not substring occurrence. -/
theorem c4_infer_scene_exact_membership :
    (∀ (k S : String) (kws : List String),
      (S, kws) ∈ Q1.scene_map → k ∈ kws → Q1.infer_scene k = S) ∧
    (∀ k : String,
      Q1.infer_scene k = "其他" ↔ ∀ p ∈ Q1.scene_map, k ∉ p.2) := by
  refine ⟨fun k S kws hmem hk => inferScene_eq_of_mem hmem hk, fun k => ?_⟩
  constructor
  · intro h p hp hk
    have h1 : Q1.infer_scene k = p.1 := inferScene_eq_of_mem hp hk
    rw [h] at h1
    fin_cases hp <;> simp_all
  · intro h
    have n1 : k ∉ ["抽牌建议", "分手 建议"] :=
      h ("情感", ["抽牌建议", "分手 建议"]) (by decide)
    have n2 : k ∉ ["考前 建议", "考试 运势"] :=
      h ("学业", ["考前 建议", "考试 运势"]) (by decide)
    have n3 : k ∉ ["面试 建议"] := h ("职业", ["面试 建议"]) (by decide)
    have n4 : k ∉ ["运势", "水逆"] := h ("日常", ["运势", "水逆"]) (by decide)
    have n5 : k ∉ ["MBTI"] := h ("人格/自我", ["MBTI"]) (by decide)
    simp only [List.mem_cons, List.not_mem_nil, or_false, not_or] at n1 n2 n3 n4 n5
    simp [Q1.infer_scene, Q1.scene_map, Q1.inferSceneGo,
      n1.1, n1.2, n2.1, n2.2, n3, n4.1, n4.2, n5]

/-- Witness for the amended C4 at the concrete keyword "水逆". -/
theorem c4_witness :
    (("日常", ["运势", "水逆"]) ∈ Q1.scene_map ∧ "水逆" ∈ ["运势", "水逆"]) ∧
    Q1.infer_scene "水逆" = "日常" :=
  ⟨⟨by decide, by decide⟩,
    c4_infer_scene_exact_membership.1 "水逆" "日常" ["运势", "水逆"]
      (by decide) (by decide)⟩


theorem sum_map_cast_div {α : Type _} (l : List α) (f : α → ℕ) (T : ℚ) :
    (l.map (fun x => ((f x : ℚ) / T))).sum = ((l.map f).sum : ℚ) / T := by
  induction l with
  | nil => simp
  | cons a l ih => by_cases hT : T = 0 <;> simp [ih, add_div]

theorem scene_total_eq_length (t : List Q1.BRow) :
    Q1.scene_total t = t.length := by
  unfold Q1.scene_total Q1.scene_counts
  rw [List.map_map]
  have h := List.sum_map_count_dedup_eq_length (Q1.sceneValues t)
  have hvlen : (Q1.sceneValues t).length = t.length := by
    simp [Q1.sceneValues, Q1.tagTable]
  simpa [Function.comp, hvlen] using h

/-- C6: in the scene aggregation of q1.py, every entry's count is the number
of rows tagged with that scene, its ratio is that count divided by the
number of rows of the table, ratios lie in [0,1], and over all scenes the
ratios sum to 1 for a non-empty table. -/
theorem c6_scene_stat_ratios (t : List Q1.BRow) (h : t ≠ []) :
    (∀ e ∈ Q1.scene_stat t,
      e.2.1 = (Q1.sceneValues t).count e.1 ∧
      e.2.2 = (e.2.1 : ℚ) / (t.length : ℚ) ∧
      0 ≤ e.2.2 ∧ e.2.2 ≤ 1) ∧
    ((Q1.scene_stat t).map (fun e => e.2.2)).sum = 1 := by
  have hvlen : (Q1.sceneValues t).length = t.length := by
    simp [Q1.sceneValues, Q1.tagTable]
  have hlenpos : 0 < t.length := List.length_pos.2 h
  have hcastpos : (0 : ℚ) < (t.length : ℚ) := by exact_mod_cast hlenpos
  constructor
  · intro e he
    obtain ⟨p, hp, rfl⟩ := List.mem_map.1 he
    obtain ⟨s, _hs, rfl⟩ := List.mem_map.1 hp
    refine ⟨rfl, by rw [scene_total_eq_length], ?_, ?_⟩
    · have : (0 : ℚ) ≤ ((Q1.sceneValues t).count s : ℚ) := by positivity
      have htnn : (0 : ℚ) ≤ (Q1.scene_total t : ℚ) := by positivity
      positivity
    · rw [scene_total_eq_length, div_le_one hcastpos]
      have hc : (Q1.sceneValues t).count s ≤ (Q1.sceneValues t).length :=
        List.count_le_length s (Q1.sceneValues t)
      rw [hvlen] at hc
      exact_mod_cast hc
  · unfold Q1.scene_stat
    rw [List.map_map]
    have hcomp : ((fun e : String × Nat × ℚ => e.2.2) ∘
        (fun p : String × Nat => (p.1, p.2, (p.2 : ℚ) / (Q1.scene_total t : ℚ))))
      = fun p : String × Nat => ((p.2 : ℚ) / (Q1.scene_total t : ℚ)) := rfl
    rw [hcomp, sum_map_cast_div]
    rw [show ((Q1.scene_counts t).map (fun p : String × Nat => p.2)).sum
        = Q1.scene_total t from rfl]
    rw [scene_total_eq_length]
    exact div_self (ne_of_gt hcastpos)

/-- Witness for C6 at a concrete two-row table. -/
theorem c6_witness :
    ([⟨"水逆", "a"⟩, ⟨"abc", "b"⟩] : List Q1.BRow) ≠ [] ∧
    ((Q1.scene_stat [⟨"水逆", "a"⟩, ⟨"abc", "b"⟩]).map (fun e => e.2.2)).sum = 1 :=
  ⟨by decide, (c6_scene_stat_ratios [⟨"水逆", "a"⟩, ⟨"abc", "b"⟩] (by decide)).2⟩

namespace WeiboAnalyse

/-- Source: weibo_analyse.py lines 68-97 (`decision_scenes`), an
insertion-ordered dict from scene name to keyword list. -/
def decision_scenes : List (String × List String) :=
  [("Emotion",
    ["复合", "分手", "恋爱", "喜欢", "前任", "暧昧", "桃花", "婚姻",
     "感情", "情感", "爱情", "对象", "恋人", "情侣", "相亲", "脱单",
     "追求", "表白", "暗恋", "单恋", "失恋", "挽回", "和好", "冷战",
     "吵架", "矛盾", "异地", "异地恋", "结婚", "离婚", "单身"]),
   ("Study",
    ["考试", "考研", "毕业", "论文", "复习", "四六级", "教资", "专四",
     "学习", "备考", "上岸", "录取", "成绩", "挂科", "补考", "重修",
     "期末", "期中", "作业", "课程", "专业", "选课", "选专业", "转专业",
     "保研", "出国", "留学", "语言", "英语", "托福", "雅思", "GRE",
     "学历", "学位", "证书", "资格证", "教师", "公务员", "事业单位"]),
   ("Career",
    ["工作", "面试", "求职", "offer", "跳槽", "事业", "岗位",
     "职业", "就业", "应聘", "简历", "HR", "薪资", "工资", "薪水",
     "转正", "实习", "试用期", "离职", "辞职", "被辞", "裁员",
     "升职", "加薪", "同事", "领导", "老板", "团队", "项目",
     "创业", "公司", "企业", "行业", "职位", "招聘", "投递"]),
   ("Daily",
    ["水逆", "运势", "选择", "健康", "出行", "今天", "本周",
     "星座", "占卜", "塔罗", "星盘", "占星", "命理", "玄学",
     "预测", "分析", "建议", "指导", "咨询", "答疑", "解惑",
     "迷茫", "困惑", "焦虑", "压力", "烦恼", "纠结", "犹豫",
     "决定", "决策", "选择困难", "人生", "未来", "规划", "目标",
     "生活", "日常", "习惯", "改变", "改善", "提升", "成长"])]

/-- Source: weibo_analyse.py lines 122-127 (`loose_keywords`). -/
def loose_keywords : List (String × List String) :=
  [("Emotion", ["爱", "情", "恋", "婚"]),
   ("Study", ["学", "考", "试", "书"]),
   ("Career", ["工", "职", "业", "作"]),
   ("Daily", ["运", "势", "星", "占", "问", "题", "想", "要"])]

/-- The scene names, in dict order. -/
def sceneNames : List String := decision_scenes.map Prod.fst

/-- Source: weibo_analyse.py lines 104-112: `scene_scores` is the
insertion-ordered dict of scenes with a positive match count; a scene is in
`hits` exactly when it is a key of `scene_scores`. -/
def sceneScores (t : String) : List (String × Nat) :=
  decision_scenes.filterMap (fun p =>
    if 0 < countHits p.2 t then some (p.1, countHits p.2 t) else none)

/-- Stable descending insertion by match count; inserting after all entries
with a count ≥ the new one reproduces the stable order of Python's
`sorted(..., key=lambda x: x[1], reverse=True)`. -/
def insertDesc (x : String × Nat) : List (String × Nat) → List (String × Nat)
  | [] => [x]
  | y :: ys => if x.2 ≤ y.2 then y :: insertDesc x ys else x :: y :: ys

/-- Model of `sorted(scene_scores.items(), key=lambda x: x[1], reverse=True)`
(weibo_analyse.py line 117): a stable sort descending by count. -/
def sortDesc (l : List (String × Nat)) : List (String × Nat) :=
  l.foldl (fun acc x => insertDesc x acc) []

/-- Model of Python's `','.join(l)`. -/
def joinComma : List String → String
  | [] => ""
  | [a] => a
  | a :: b :: rest => a ++ "," ++ joinComma (b :: rest)

/-- Source: weibo_analyse.py lines 129-131: first loose scene one of whose
characters occurs in the text, else fall through to "Other" (line 133). -/
def looseFindGo (t : String) : List (String × List String) → String
  | [] => "Other"
  | p :: rest =>
    if p.2.any (fun w => containsSub t w) then p.1 else looseFindGo t rest

/-- Source: weibo_analyse.py lines 99-133 (`tag_scene`); `none` stands for a
non-string cell (`not isinstance(text, str)`). -/
def tag_scene : Option String → String
  | none => "Other"
  | some t =>
    if pyStrip t.data = [] then "Other"
    else
      if sceneScores t = [] then looseFindGo t loose_keywords
      else joinComma (((sortDesc (sceneScores t)).take 2).map Prod.fst)

/-- All keywords `tag_scene` can match: the strict lists then the loose
lists. -/
def all_scene_words : List String :=
  (decision_scenes.map Prod.snd).flatten ++ (loose_keywords.map Prod.snd).flatten

/-- Source: weibo_analyse.py line 249. -/
def mystic_words : List String :=
  ["星座", "塔罗", "占卜", "显化", "运势", "宇宙", "水逆", "玄学"]

/-- Source: weibo_analyse.py lines 251-252 (`mystic_density`). -/
def mystic_density (text : String) : Nat :=
  countHits mystic_words text

/-- One row of the weibo table after text cleaning, restricted to the
columns the derived-column steps of weibo_analyse.py read. -/
structure WRow where
  clean_text : String
  reposts_count : ℚ
  comments_count : ℚ
  attitudes_count : ℚ
deriving DecidableEq

/-- Source: weibo_analyse.py line 135:
`df['scene_tag'] = df['clean_text'].apply(tag_scene)`. -/
def sceneTagCol (t : List WRow) : List String :=
  t.map (fun r => tag_scene (some r.clean_text))

/-- Source: weibo_analyse.py line 215:
`df['sentiment_score'] = df['clean_text'].apply(sentiment_score)`. -/
def sentimentCol (t : List WRow) : List Int :=
  t.map (fun r => sentiment_score r.clean_text)

/-- Source: weibo_analyse.py line 254:
`df['mystic_density'] = df['clean_text'].apply(mystic_density)`. -/
def mysticCol (t : List WRow) : List Nat :=
  t.map (fun r => mystic_density r.clean_text)

/-- Source: weibo_analyse.py lines 256-260 (`interaction_score`). -/
def interactionCol (t : List WRow) : List ℚ :=
  t.map (fun r =>
    r.reposts_count + r.comments_count * 2 + r.attitudes_count * (1 / 2))

/-- Source: weibo_analyse.py line 135 as a table mutation: the scene-tag
column is appended to each row. -/
def addSceneTag (t : List WRow) : List (WRow × String) :=
  t.map (fun r => (r, tag_scene (some r.clean_text)))

/-- Mean of a column, as computed by sklearn's StandardScaler. -/
noncomputable def colMean (l : List ℝ) : ℝ :=
  l.sum / l.length

/-- Population variance of a column (StandardScaler uses ddof = 0). -/
noncomputable def colVar (l : List ℝ) : ℝ :=
  ((l.map (fun x => (x - colMean l) ^ 2)).sum) / l.length

/-- StandardScaler's scale: the square root of the variance, with a zero
variance replaced by 1 (sklearn's `_handle_zeros_in_scale`). -/
noncomputable def colScale (l : List ℝ) : ℝ :=
  if colVar l = 0 then 1 else Real.sqrt (colVar l)

/-- Column transform of `StandardScaler().fit_transform` (weibo_analyse.py
line 263). -/
noncomputable def standardizeCol (l : List ℝ) : List ℝ :=
  l.map (fun x => (x - colMean l) / colScale l)

/-- Source: weibo_analyse.py lines 262-269 (`depend_index`): the weighted
combination 0.4, 0.4, -0.2 of the standardized mystic-density, interaction
and sentiment columns. -/
noncomputable def depend_index_col (t : List WRow) : List ℝ :=
  let z0 := standardizeCol ((mysticCol t).map (fun n => (n : ℝ)))
  let z1 := standardizeCol ((interactionCol t).map (fun q => (q : ℝ)))
  let z2 := standardizeCol ((sentimentCol t).map (fun i => (i : ℝ)))
  (z0.zip (z1.zip z2)).map
    (fun v => v.1 * (2 / 5) + v.2.1 * (2 / 5) + (-v.2.2) * (1 / 5))

end WeiboAnalyse

namespace WeiboAnalyse

theorem insertDesc_perm (x : String × Nat) (l : List (String × Nat)) :
    insertDesc x l ~ x :: l := by
  induction l with
  | nil => exact List.Perm.refl _
  | cons y ys ih =>
    unfold insertDesc
    by_cases h : x.2 ≤ y.2
    · rw [if_pos h]
      exact (ih.cons y).trans (List.Perm.swap x y ys)
    · rw [if_neg h]

theorem sortDescGo_perm (l : List (String × Nat)) :
    ∀ acc, l.foldl (fun acc x => insertDesc x acc) acc ~ acc ++ l := by
  induction l with
  | nil => intro acc; simp
  | cons x xs ih =>
    intro acc
    simp only [List.foldl_cons]
    calc xs.foldl (fun acc x => insertDesc x acc) (insertDesc x acc)
        ~ insertDesc x acc ++ xs := ih _
      _ ~ (x :: acc) ++ xs := (insertDesc_perm x acc).append_right xs
      _ = x :: (acc ++ xs) := rfl
      _ ~ acc ++ x :: xs := List.perm_middle.symm

theorem sortDesc_perm (l : List (String × Nat)) : sortDesc l ~ l := by
  simpa using sortDescGo_perm l []

theorem sceneScores_keys {t : String} {p : String × Nat}
    (hp : p ∈ sceneScores t) : p.1 ∈ sceneNames := by
  obtain ⟨a, ha, hfa⟩ := List.mem_filterMap.1 hp
  by_cases h : 0 < countHits a.2 t
  · rw [if_pos h] at hfa
    cases hfa
    exact List.mem_map_of_mem Prod.fst ha
  · rw [if_neg h] at hfa
    cases hfa

theorem sceneScores_keys_sublist (t : String) :
    (sceneScores t).map Prod.fst <+ sceneNames := by
  unfold sceneScores sceneNames
  generalize decision_scenes = l
  induction l with
  | nil => simp
  | cons p l ih =>
    rw [List.filterMap_cons]
    by_cases h : 0 < countHits p.2 t
    · rw [if_pos h]
      simpa using ih.cons₂ p.1
    · rw [if_neg h]
      exact ih.cons p.1

theorem sceneNames_nodup : sceneNames.Nodup := by decide

theorem sortDesc_keys_nodup (t : String) :
    ((sortDesc (sceneScores t)).map Prod.fst).Nodup :=
  (((sortDesc_perm (sceneScores t)).map Prod.fst).nodup_iff).2
    ((sceneScores_keys_sublist t).nodup sceneNames_nodup)

theorem strict_result_shape (t : String) (hss : sceneScores t ≠ []) :
    joinComma (((sortDesc (sceneScores t)).take 2).map Prod.fst) ∈ sceneNames ∨
    (∃ a b, a ∈ sceneNames ∧ b ∈ sceneNames ∧ a ≠ b ∧
      joinComma (((sortDesc (sceneScores t)).take 2).map Prod.fst) =
        a ++ "," ++ b) := by
  have hperm := sortDesc_perm (sceneScores t)
  have hmem : ∀ p ∈ sortDesc (sceneScores t), p.1 ∈ sceneNames :=
    fun p hp => sceneScores_keys (hperm.subset hp)
  have hnd := sortDesc_keys_nodup t
  cases hsort : sortDesc (sceneScores t) with
  | nil =>
    exfalso
    apply hss
    have := hperm.length_eq
    rw [hsort] at this
    exact List.length_eq_zero.1 this.symm
  | cons a tail =>
    cases tail with
    | nil =>
      left
      rw [hsort] at hmem
      simpa [joinComma] using hmem a (List.mem_cons_self a [])
    | cons b rest =>
      right
      rw [hsort] at hmem hnd
      refine ⟨a.1, b.1, hmem a (by simp), hmem b (by simp), ?_, ?_⟩
      · simp only [List.map_cons, List.nodup_cons, List.mem_cons] at hnd
        exact fun h => hnd.1 (Or.inl h)
      · simp [joinComma]

theorem looseGo_shape (t : String) (l : List (String × List String)) :
    looseFindGo t l = "Other" ∨ looseFindGo t l ∈ l.map Prod.fst := by
  induction l with
  | nil => left; rfl
  | cons p l ih =>
    unfold looseFindGo
    by_cases h : p.2.any (fun w => containsSub t w) = true
    · rw [if_pos h]
      right
      exact List.mem_cons_self _ _
    · rw [if_neg (by simpa using h)]
      rcases ih with ih | ih
      · left; exact ih
      · right; exact List.mem_cons_of_mem _ ih

theorem looseGo_other_iff (t : String) {l : List (String × List String)}
    (hk : ∀ p ∈ l, p.1 ≠ "Other") :
    looseFindGo t l = "Other" ↔
      ∀ p ∈ l, p.2.any (fun w => containsSub t w) = false := by
  induction l with
  | nil => simp [looseFindGo]
  | cons p l ih =>
    have hk' : ∀ q ∈ l, q.1 ≠ "Other" :=
      fun q hq => hk q (List.mem_cons_of_mem _ hq)
    unfold looseFindGo
    by_cases h : p.2.any (fun w => containsSub t w) = true
    · rw [if_pos h]
      constructor
      · intro hph
        exact absurd hph (hk p (List.mem_cons_self _ _))
      · intro hall
        have := hall p (List.mem_cons_self _ _)
        rw [h] at this
        cases this
    · rw [if_neg (by simpa using h)]
      rw [ih hk']
      constructor
      · intro hall q hq
        rcases List.mem_cons.1 hq with rfl | hq
        · simpa using h
        · exact hall q hq
      · intro hall q hq
        exact hall q (List.mem_cons_of_mem _ hq)

theorem tag_scene_some (t : String) :
    tag_scene (some t) =
      if pyStrip t.data = [] then "Other"
      else if sceneScores t = [] then looseFindGo t loose_keywords
      else joinComma (((sortDesc (sceneScores t)).take 2).map Prod.fst) := rfl

theorem no_hit_of_all_space {t w : String}
    (hsp : ∀ c ∈ t.data, pySpace c = true)
    (hw : w.data.any (fun c => !pySpace c) = true) :
    containsSub t w = false := by
  by_contra h
  rw [Bool.not_eq_false] at h
  obtain ⟨c, hcw, hc⟩ := List.any_eq_true.1 hw
  have hct : c ∈ t.data := subAt_mem h c hcw
  rw [hsp c hct] at hc
  simp at hc

theorem all_scene_words_non_space :
    all_scene_words.all (fun w => w.data.any (fun c => !pySpace c)) = true := by
  decide

theorem all_words_spec {t : String} :
    (∀ w ∈ all_scene_words, containsSub t w = false) ↔
      ((∀ p ∈ decision_scenes, ∀ w ∈ p.2, containsSub t w = false) ∧
        (∀ p ∈ loose_keywords, ∀ w ∈ p.2, containsSub t w = false)) := by
  constructor
  · intro h
    constructor
    · intro p hp w hw
      exact h w (List.mem_append_left _
        (List.mem_flatten.2 ⟨p.2, List.mem_map_of_mem Prod.snd hp, hw⟩))
    · intro p hp w hw
      exact h w (List.mem_append_right _
        (List.mem_flatten.2 ⟨p.2, List.mem_map_of_mem Prod.snd hp, hw⟩))
  · rintro ⟨h1, h2⟩ w hw
    rcases List.mem_append.1 hw with hw | hw <;>
      obtain ⟨l, hl, hwl⟩ := List.mem_flatten.1 hw <;>
      obtain ⟨p, hp, rfl⟩ := List.mem_map.1 hl
    · exact h1 p hp w hwl
    · exact h2 p hp w hwl

theorem sceneScores_eq_nil_iff (t : String) :
    sceneScores t = [] ↔
      ∀ p ∈ decision_scenes, ∀ w ∈ p.2, containsSub t w = false := by
  unfold sceneScores
  rw [List.filterMap_eq_nil_iff]
  constructor
  · intro h p hp w hw
    have hnone := h p hp
    by_cases hc : 0 < countHits p.2 t
    · rw [if_pos hc] at hnone; cases hnone
    · have h0 : countHits p.2 t = 0 := Nat.eq_zero_of_not_pos hc
      rw [countHits_eq] at h0
      have hfil := List.length_eq_zero.1 h0
      have := List.filter_eq_nil_iff.1 hfil w hw
      simpa using this
  · intro h p hp
    have h0 : countHits p.2 t = 0 := by
      rw [countHits_eq]
      rw [List.length_eq_zero]
      exact List.filter_eq_nil_iff.2 (fun w hw => by simp [h p hp w hw])
    rw [if_neg (by rw [h0]; exact Nat.lt_irrefl 0)]

end WeiboAnalyse

/-- C5: `tag_scene` returns "Other" exactly when the input is not a
non-empty string or no keyword of the strict decision_scenes lists nor of
the loose_keywords lists occurs as a substring of the text. -/
theorem c5_tag_scene_other_iff (x : Option String) :
    WeiboAnalyse.tag_scene x = "Other" ↔
      (x = none ∨ x = some "" ∨
        ∃ t, x = some t ∧
          ∀ w ∈ WeiboAnalyse.all_scene_words, containsSub t w = false) := by
  cases x with
  | none => simp [WeiboAnalyse.tag_scene]
  | some t =>
    constructor
    · intro h
      by_cases hstrip : pyStrip t.data = []
      · right; right
        refine ⟨t, rfl, fun w hw => ?_⟩
        have hsp := pyStrip_eq_nil hstrip
        have hwns : w.data.any (fun c => !pySpace c) = true := by
          have hall := WeiboAnalyse.all_scene_words_non_space
          rw [List.all_eq_true] at hall
          exact hall w hw
        exact WeiboAnalyse.no_hit_of_all_space hsp hwns
      · rw [WeiboAnalyse.tag_scene_some, if_neg hstrip] at h
        by_cases hss : WeiboAnalyse.sceneScores t = []
        · rw [if_pos hss] at h
          right; right
          refine ⟨t, rfl, ?_⟩
          rw [WeiboAnalyse.all_words_spec]
          refine ⟨(WeiboAnalyse.sceneScores_eq_nil_iff t).1 hss, ?_⟩
          have hkeys : ∀ p ∈ WeiboAnalyse.loose_keywords, p.1 ≠ "Other" := by
            decide
          have hl := (WeiboAnalyse.looseGo_other_iff t hkeys).1 h
          intro p hp w hw
          have hany := hl p hp
          rw [List.any_eq_false] at hany
          simpa using hany w hw
        · rw [if_neg hss] at h
          exfalso
          rcases WeiboAnalyse.strict_result_shape t hss with hmem |
            ⟨a, b, ha, hb, _hab, heq⟩
          · rw [h] at hmem
            exact absurd hmem (by decide)
          · rw [h] at heq
            have hne : ∀ a ∈ WeiboAnalyse.sceneNames,
                ∀ b ∈ WeiboAnalyse.sceneNames, ¬("Other" = a ++ "," ++ b) := by
              decide
            exact hne a ha b hb heq
    · intro h
      rcases h with h | h | ⟨t', ht', hno⟩
      · cases h
      · have ht : t = "" := by injection h
        subst ht
        decide
      · have ht : t = t' := by injection ht'
        subst ht
        rw [WeiboAnalyse.all_words_spec] at hno
        obtain ⟨hstrict, hloose⟩ := hno
        rw [WeiboAnalyse.tag_scene_some]
        by_cases hstrip : pyStrip t.data = []
        · rw [if_pos hstrip]
        · rw [if_neg hstrip]
          have hss : WeiboAnalyse.sceneScores t = [] :=
            (WeiboAnalyse.sceneScores_eq_nil_iff t).2 hstrict
          rw [if_pos hss]
          refine (WeiboAnalyse.looseGo_other_iff t (by decide)).2 ?_
          intro p hp
          rw [List.any_eq_false]
          intro w hw
          simp [hloose p hp w hw]

/-- C10: the string returned by `tag_scene` is either "Other", a single
scene name from the fixed set, or exactly two distinct scene names joined
by a comma; never more than two labels. -/
theorem c10_tag_scene_label_shape (x : Option String) :
    WeiboAnalyse.tag_scene x = "Other" ∨
    WeiboAnalyse.tag_scene x ∈ (["Emotion", "Study", "Career", "Daily"] : List String) ∨
    (∃ a b, a ∈ (["Emotion", "Study", "Career", "Daily"] : List String) ∧
      b ∈ (["Emotion", "Study", "Career", "Daily"] : List String) ∧ a ≠ b ∧
      WeiboAnalyse.tag_scene x = a ++ "," ++ b) := by
  have hnames : WeiboAnalyse.sceneNames = ["Emotion", "Study", "Career", "Daily"] :=
    rfl
  cases x with
  | none => left; rfl
  | some t =>
    rw [WeiboAnalyse.tag_scene_some]
    by_cases hstrip : pyStrip t.data = []
    · rw [if_pos hstrip]; left; rfl
    · rw [if_neg hstrip]
      by_cases hss : WeiboAnalyse.sceneScores t = []
      · rw [if_pos hss]
        rcases WeiboAnalyse.looseGo_shape t WeiboAnalyse.loose_keywords with h | h
        · left; exact h
        · right; left; exact h
      · rw [if_neg hss]
        rcases WeiboAnalyse.strict_result_shape t hss with h |
          ⟨a, b, ha, hb, hab, heq⟩
        · right; left; rw [← hnames]; exact h
        · right; right; exact ⟨a, b, hnames ▸ ha, hnames ▸ hb, hab, heq⟩

theorem map_fst_pair {α β : Type _} (f : α → β) (l : List α) :
    (l.map (fun r => (r, f r))).map Prod.fst = l := by
  induction l with
  | nil => rfl
  | cons a l ih => simp [ih]

/-- C7: adding the derived scene column (q1.py line 55, weibo_analyse.py
line 135) only adds that column: the row count and every pre-existing
row (hence every pre-existing column value) are unchanged. -/
theorem c7_tagging_frame (tq : List Q1.BRow) (tw : List WeiboAnalyse.WRow) :
    ((Q1.tagTable tq).length = tq.length ∧
      (Q1.tagTable tq).map Prod.fst = tq) ∧
    ((WeiboAnalyse.addSceneTag tw).length = tw.length ∧
      (WeiboAnalyse.addSceneTag tw).map Prod.fst = tw) := by
  refine ⟨⟨by simp [Q1.tagTable], ?_⟩, ⟨by simp [WeiboAnalyse.addSceneTag], ?_⟩⟩
  · unfold Q1.tagTable
    exact map_fst_pair (fun r => Q1.infer_scene r.keyword) tq
  · unfold WeiboAnalyse.addSceneTag
    exact map_fst_pair (fun r => WeiboAnalyse.tag_scene (some r.clean_text)) tw

/-- C2 (amended): the string-matching derived columns (scene tag, sentiment
score, mystic density) and the interaction score are computed per row: two
tables agreeing at row i get identical derived values at row i, whatever
the other rows are. The dependence index is excluded: it standardizes
whole columns (see the counterexample). -/
theorem c2_string_columns_per_row (t1 t2 : List WeiboAnalyse.WRow) (i : Nat)
    (h : t1[i]? = t2[i]?) :
    (WeiboAnalyse.sceneTagCol t1)[i]? = (WeiboAnalyse.sceneTagCol t2)[i]? ∧
    (WeiboAnalyse.sentimentCol t1)[i]? = (WeiboAnalyse.sentimentCol t2)[i]? ∧
    (WeiboAnalyse.mysticCol t1)[i]? = (WeiboAnalyse.mysticCol t2)[i]? ∧
    (WeiboAnalyse.interactionCol t1)[i]? = (WeiboAnalyse.interactionCol t2)[i]? := by
  refine ⟨?_, ?_, ?_, ?_⟩ <;>
    simp [WeiboAnalyse.sceneTagCol, WeiboAnalyse.sentimentCol,
      WeiboAnalyse.mysticCol, WeiboAnalyse.interactionCol, h]

/-- Witness for the amended C2: two concrete tables agreeing at row 0. -/
theorem c2_amended_witness :
    (([⟨"", 0, 0, 0⟩, ⟨"星座塔罗", 0, 0, 0⟩] : List WeiboAnalyse.WRow)[0]? =
      ([⟨"", 0, 0, 0⟩, ⟨"xx", 1, 2, 3⟩] : List WeiboAnalyse.WRow)[0]?) ∧
    ((WeiboAnalyse.sceneTagCol [⟨"", 0, 0, 0⟩, ⟨"星座塔罗", 0, 0, 0⟩])[0]? =
        (WeiboAnalyse.sceneTagCol [⟨"", 0, 0, 0⟩, ⟨"xx", 1, 2, 3⟩])[0]? ∧
      (WeiboAnalyse.sentimentCol [⟨"", 0, 0, 0⟩, ⟨"星座塔罗", 0, 0, 0⟩])[0]? =
        (WeiboAnalyse.sentimentCol [⟨"", 0, 0, 0⟩, ⟨"xx", 1, 2, 3⟩])[0]? ∧
      (WeiboAnalyse.mysticCol [⟨"", 0, 0, 0⟩, ⟨"星座塔罗", 0, 0, 0⟩])[0]? =
        (WeiboAnalyse.mysticCol [⟨"", 0, 0, 0⟩, ⟨"xx", 1, 2, 3⟩])[0]? ∧
      (WeiboAnalyse.interactionCol [⟨"", 0, 0, 0⟩, ⟨"星座塔罗", 0, 0, 0⟩])[0]? =
        (WeiboAnalyse.interactionCol [⟨"", 0, 0, 0⟩, ⟨"xx", 1, 2, 3⟩])[0]?) :=
  ⟨by decide,
    c2_string_columns_per_row [⟨"", 0, 0, 0⟩, ⟨"星座塔罗", 0, 0, 0⟩]
      [⟨"", 0, 0, 0⟩, ⟨"xx", 1, 2, 3⟩] 0 (by decide)⟩

theorem standardize_zeros : WeiboAnalyse.standardizeCol [0, 0] = [0, 0] := by
  have hm : WeiboAnalyse.colMean [(0 : ℝ), 0] = 0 := by
    simp [WeiboAnalyse.colMean]
  have hv : WeiboAnalyse.colVar [(0 : ℝ), 0] = 0 := by
    simp [WeiboAnalyse.colVar, hm]
  have hs : WeiboAnalyse.colScale [(0 : ℝ), 0] = 1 := by
    simp [WeiboAnalyse.colScale, hv]
  simp [WeiboAnalyse.standardizeCol, hm, hs]

theorem standardize_zero_two :
    WeiboAnalyse.standardizeCol [(0 : ℝ), 2] = [-1, 1] := by
  have hm : WeiboAnalyse.colMean [(0 : ℝ), 2] = 1 := by
    norm_num [WeiboAnalyse.colMean]
  have hv : WeiboAnalyse.colVar [(0 : ℝ), 2] = 1 := by
    norm_num [WeiboAnalyse.colVar, hm]
  have hs : WeiboAnalyse.colScale [(0 : ℝ), 2] = 1 := by
    simp [WeiboAnalyse.colScale, hv]
  norm_num [WeiboAnalyse.standardizeCol, hm, hs]

/-- C2 counterexample: the dependence-index column is not per-row: the two
tables below agree at row 0, yet row 0's dependence index is 0 in the
first and -2/5 in the second, because `StandardScaler` standardizes with
the whole column's mean and variance. -/
theorem c2_counterexample :
    (([⟨"", 0, 0, 0⟩, ⟨"", 0, 0, 0⟩] : List WeiboAnalyse.WRow)[0]? =
        ([⟨"", 0, 0, 0⟩, ⟨"星座塔罗", 0, 0, 0⟩] : List WeiboAnalyse.WRow)[0]?) ∧
    (WeiboAnalyse.depend_index_col [⟨"", 0, 0, 0⟩, ⟨"", 0, 0, 0⟩])[0]? =
      some ((0 : ℝ)) ∧
    (WeiboAnalyse.depend_index_col
        [⟨"", 0, 0, 0⟩, ⟨"星座塔罗", 0, 0, 0⟩])[0]? = some ((-(2 / 5) : ℝ)) ∧
    ((0 : ℝ) ≠ -(2 / 5)) := by
  have hm1 : WeiboAnalyse.mysticCol [⟨"", 0, 0, 0⟩, ⟨"", 0, 0, 0⟩] = [0, 0] := by
    decide
  have hm2 : WeiboAnalyse.mysticCol [⟨"", 0, 0, 0⟩, ⟨"星座塔罗", 0, 0, 0⟩]
      = [0, 2] := by decide
  have hi1 : WeiboAnalyse.interactionCol [⟨"", 0, 0, 0⟩, ⟨"", 0, 0, 0⟩]
      = [0, 0] := by
    simp [WeiboAnalyse.interactionCol]
  have hi2 : WeiboAnalyse.interactionCol [⟨"", 0, 0, 0⟩, ⟨"星座塔罗", 0, 0, 0⟩]
      = [0, 0] := by
    simp [WeiboAnalyse.interactionCol]
  have hs1 : WeiboAnalyse.sentimentCol [⟨"", 0, 0, 0⟩, ⟨"", 0, 0, 0⟩]
      = [0, 0] := by decide
  have hs2 : WeiboAnalyse.sentimentCol [⟨"", 0, 0, 0⟩, ⟨"星座塔罗", 0, 0, 0⟩]
      = [0, 0] := by decide
  refine ⟨by decide, ?_, ?_, by norm_num⟩
  · rw [WeiboAnalyse.depend_index_col, hm1, hi1, hs1]
    norm_num [standardize_zeros, List.zip]
  · rw [WeiboAnalyse.depend_index_col, hm2, hi2, hs2]
    norm_num [standardize_zeros, standardize_zero_two, List.zip]

namespace Bilibili

/-- One raw video item of the bilibili search API response. -/
structure RawItem where
  title : String
  author : String
  play : Int
  danmaku : Int
  pubdate : Int
  bvid : String
deriving DecidableEq

/-- One result record of `search_bilibili`. -/
structure Item where
  keyword : String
  title : String
  up : String
  play : Int
  danmu : Int
  pubdate : Int
  bvid : String
  link : String
deriving DecidableEq

/-- Outcome of one page's `requests.get` and response inspection: either an
exception during the HTTP call, or a response with status code, body text,
and the outcome of `r.json()` (which itself may raise). -/
inductive FetchOutcome where
  | exn (msg : String)
  | resp (status : Nat) (text : String) (json : Except String (List RawItem))

/-- Source: bilibili_data.py lines 66-76: build one result record. -/
def mkItem (kw : String) (v : RawItem) : Item :=
  { keyword := kw
    title := (v.title.replace "<em class=\"keyword\">" "").replace "</em>" ""
    up := v.author
    play := v.play
    danmu := v.danmaku
    pubdate := v.pubdate
    bvid := v.bvid
    link := "https://www.bilibili.com/video/" ++ v.bvid }

/-- Python's `random.uniform(a, b)`: `a + (b - a) * u` for a unit draw
`u ∈ [0, 1]`. -/
def uniformDraw (a b u : ℚ) : ℚ := a + (b - a) * u

/-- Body of one iteration of the page loop of `search_bilibili`
(bilibili_data.py lines 45-78), as run inside the `try`; an `Except.error`
is an uncaught Python exception. Returns the items appended by this
iteration and the sleep delays it performs (the two `continue` branches
skip the sleep as well). `d` is this iteration's `random.uniform(1.5, 3)`
value. -/
def pageBody (kw : String) (d : ℚ) :
    FetchOutcome → Except String (List Item × List ℚ)
  | .exn e => .error e
  | .resp status text json =>
    if status ≠ 200 || (pyStrip text.data).isEmpty then .ok ([], [])
    else
      match json with
      | .error e => .error e
      | .ok items =>
        if items.isEmpty then .ok ([], [])
        else .ok (items.map (mkItem kw), [d])

/-- The page loop of `search_bilibili` over the remaining page numbers,
carrying the accumulated `results` and the trace of sleep delays; each
iteration's body is wrapped in the `try`/`except`-continue of
bilibili_data.py lines 45-82. -/
def searchLoop (fetch : Nat → FetchOutcome) (us : Nat → ℚ) (kw : String) :
    List Nat → List Item × List ℚ → Except String (List Item × List ℚ)
  | [], acc => .ok acc
  | p :: ps, acc => do
    let acc' ← Except.tryCatch
      (do
        let (its, ds) ← pageBody kw (uniformDraw (3 / 2) 3 (us p)) (fetch p)
        pure (acc.1 ++ its, acc.2 ++ ds))
      (fun _ => pure acc)
    searchLoop fetch us kw ps acc'

/-- Source: bilibili_data.py lines 34-84 (`search_bilibili`): iterate pages
1..pages and return the accumulated results. `fetch` gives each page's
HTTP outcome and `us` each iteration's unit random draw. -/
def search_bilibili (fetch : Nat → FetchOutcome) (us : Nat → ℚ) (kw : String)
    (pages : Nat) : Except String (List Item × List ℚ) :=
  searchLoop fetch us kw (List.range' 1 pages) ([], [])

/-- Results and delays contributed by one page: those of a successful body,
nothing for a page whose body raised. -/
def pageRecover (kw : String) (d : ℚ) (fr : FetchOutcome) :
    List Item × List ℚ :=
  match pageBody kw d fr with
  | .error _ => ([], [])
  | .ok r => r

theorem searchLoop_ok (fetch : Nat → FetchOutcome) (us : Nat → ℚ)
    (kw : String) :
    ∀ (ps : List Nat) (acc : List Item × List ℚ),
      searchLoop fetch us kw ps acc = .ok
        (acc.1 ++ (ps.map (fun p =>
            (pageRecover kw (uniformDraw (3 / 2) 3 (us p)) (fetch p)).1)).flatten,
          acc.2 ++ (ps.map (fun p =>
            (pageRecover kw (uniformDraw (3 / 2) 3 (us p)) (fetch p)).2)).flatten) := by
  intro ps
  induction ps with
  | nil => intro acc; simp [searchLoop]
  | cons p ps ih =>
    intro acc
    unfold searchLoop
    cases h : pageBody kw (uniformDraw (3 / 2) 3 (us p)) (fetch p) with
    | error e =>
      simp only [Except.tryCatch, h, Except.bind, bind, pure, Except.pure]
      rw [ih acc]
      simp [pageRecover, h]
    | ok r =>
      obtain ⟨its, ds⟩ := r
      simp only [Except.tryCatch, h, Except.bind, bind, pure, Except.pure]
      rw [ih (acc.1 ++ its, acc.2 ++ ds)]
      simp [pageRecover, h]

end Bilibili

/-- C3: `search_bilibili` never raises out of a page fetch: it always
returns `ok`, the exception of a failing page is caught and that page
contributes nothing, and the result accumulates, in page order, exactly
the items of the pages that succeeded. -/
theorem c3_search_bilibili_collects (fetch : Nat → Bilibili.FetchOutcome)
    (us : Nat → ℚ) (kw : String) (pages : Nat) :
    Bilibili.search_bilibili fetch us kw pages = Except.ok
      (((List.range' 1 pages).map (fun p =>
          (Bilibili.pageRecover kw (Bilibili.uniformDraw (3 / 2) 3 (us p))
            (fetch p)).1)).flatten,
        ((List.range' 1 pages).map (fun p =>
          (Bilibili.pageRecover kw (Bilibili.uniformDraw (3 / 2) 3 (us p))
            (fetch p)).2)).flatten) := by
  unfold Bilibili.search_bilibili
  rw [Bilibili.searchLoop_ok]
  simp

namespace Xiaohongshu

/-- Source: xiaohongshu_data.py line 32: `SLEEP_TIME = 1`. -/
def SLEEP_TIME : ℚ := 1

/-- One raw item of the search response; `none` stands for an absent or
`None` field, the `nc`-prefixed fields are the `note_card` fallbacks. -/
structure XItem where
  title : Option String
  ncDisplayTitle : String
  descr : Option String
  ncDesc : String
  nickname : String
  likes : Option Int
  ncLiked : Int
  comments : Option Int
  ncComment : Int
  favorites : Option Int
  ncCollected : Int
  id : String
deriving DecidableEq

/-- One note record built by `fetch_notes`. -/
structure XNote where
  keyword : String
  title : String
  descr : String
  author : String
  likes : Int
  comments : Int
  favorites : Int
  note_id : String
  link : String
deriving DecidableEq

/-- Python's `a or b` for an optional string `a`: `b` when `a` is `None` or
empty (falsy). -/
def strOr (a : Option String) (b : String) : String :=
  match a with
  | none => b
  | some s => if s = "" then b else s

/-- Python's `a or b` for an optional integer `a`: `b` when `a` is `None`
or 0 (falsy). -/
def intOr (a : Option Int) (b : Int) : Int :=
  match a with
  | none => b
  | some n => if n = 0 then b else n

/-- The `data` object of the parsed response; `fetch_notes` reads the
fields `items` and `list` (the `notes` read on line 62 is immediately
overwritten on line 63). -/
structure XData where
  items : List XItem
  listField : List XItem
deriving DecidableEq

/-- Source: xiaohongshu_data.py lines 59-63: take `data.items`, falling
back to `data.list` when it is empty. -/
def getItems (d : XData) : List XItem :=
  if d.items.isEmpty then d.listField else d.items

/-- Source: xiaohongshu_data.py lines 66-76: build one note record. -/
def mkNote (kw : String) (v : XItem) : XNote :=
  { keyword := kw
    title := strOr v.title v.ncDisplayTitle
    descr := strOr v.descr v.ncDesc
    author := v.nickname
    likes := intOr v.likes v.ncLiked
    comments := intOr v.comments v.ncComment
    favorites := intOr v.favorites v.ncCollected
    note_id := v.id
    link := "https://www.xiaohongshu.com/explore/" ++ v.id }

/-- Outcome of one page's `requests.get`: an exception from the HTTP call,
some other exception inside the `try`, or a response whose `resp.json()`
either raises (`Except.error`) or yields a `data` object. -/
inductive XFetchOutcome where
  | reqExn (msg : String)
  | otherExn (msg : String)
  | resp (status : Nat) (text : String) (json : Except String XData)

/-- The Python exceptions distinguished by the three `except` clauses of
`fetch_notes` (xiaohongshu_data.py lines 80-86). -/
inductive XErr where
  | req (msg : String)
  | val (msg : String)
  | other (msg : String)

/-- Body of one iteration of the page loop of `fetch_notes`
(xiaohongshu_data.py lines 51-79), as run inside the `try`: on success it
yields the notes appended by this iteration and the single
`time.sleep(SLEEP_TIME)` it performs. -/
def noteBody (kw : String) : XFetchOutcome → Except XErr (List XNote × List ℚ)
  | .reqExn e => .error (.req e)
  | .otherExn e => .error (.other e)
  | .resp _status _text json =>
    match json with
    | .error e => .error (.val e)
    | .ok d => .ok ((getItems d).map (mkNote kw), [SLEEP_TIME])

/-- The page loop of `fetch_notes`: each iteration's body runs inside
`try`, and each of the three `except` clauses swallows the exception and
lets the loop continue. -/
def notesLoop (fetch : Nat → XFetchOutcome) (kw : String) :
    List Nat → List XNote × List ℚ → Except XErr (List XNote × List ℚ)
  | [], acc => .ok acc
  | p :: ps, acc => do
    let acc' ← Except.tryCatch
      (do
        let (its, ds) ← noteBody kw (fetch p)
        pure (acc.1 ++ its, acc.2 ++ ds))
      (fun e => match e with
        | .req _ => pure acc
        | .val _ => pure acc
        | .other _ => pure acc)
    notesLoop fetch kw ps acc'

/-- Source: xiaohongshu_data.py lines 37-87 (`fetch_notes`). -/
def fetch_notes (fetch : Nat → XFetchOutcome) (kw : String) (pages : Nat) :
    Except XErr (List XNote × List ℚ) :=
  notesLoop fetch kw (List.range' 1 pages) ([], [])

/-- Notes and delays contributed by one page. -/
def noteRecover (kw : String) (fr : XFetchOutcome) : List XNote × List ℚ :=
  match noteBody kw fr with
  | .error _ => ([], [])
  | .ok r => r

theorem notesLoop_ok (fetch : Nat → XFetchOutcome) (kw : String) :
    ∀ (ps : List Nat) (acc : List XNote × List ℚ),
      notesLoop fetch kw ps acc = .ok
        (acc.1 ++ (ps.map (fun p => (noteRecover kw (fetch p)).1)).flatten,
          acc.2 ++ (ps.map (fun p => (noteRecover kw (fetch p)).2)).flatten) := by
  intro ps
  induction ps with
  | nil => intro acc; simp [notesLoop]
  | cons p ps ih =>
    intro acc
    unfold notesLoop
    cases h : noteBody kw (fetch p) with
    | error e =>
      cases e <;>
        · simp only [Except.tryCatch, h, Except.bind, bind, pure, Except.pure]
          rw [ih acc]
          simp [noteRecover, h]
    | ok r =>
      obtain ⟨its, ds⟩ := r
      simp only [Except.tryCatch, h, Except.bind, bind, pure, Except.pure]
      rw [ih (acc.1 ++ its, acc.2 ++ ds)]
      simp [noteRecover, h]

theorem noteRecover_snd {kw : String} {fr : XFetchOutcome} :
    ∀ x ∈ (noteRecover kw fr).2, x = SLEEP_TIME := by
  intro x hx
  unfold noteRecover noteBody at hx
  cases fr with
  | reqExn e => simp at hx
  | otherExn e => simp at hx
  | resp status text json =>
    cases json with
    | error e => simp at hx
    | ok d => simpa using hx

end Xiaohongshu

namespace Bilibili

theorem pageBody_snd {kw : String} {d : ℚ} {fr : FetchOutcome}
    {r : List Item × List ℚ} (h : pageBody kw d fr = .ok r) :
    ∀ x ∈ r.2, x = d := by
  cases fr with
  | exn e => simp [pageBody] at h
  | resp status text json =>
    simp only [pageBody] at h
    split at h
    · cases h
      simp
    · split at h
      · simp at h
      · split at h
        · cases h
          simp
        · cases h
          simp

theorem pageRecover_snd {kw : String} {d : ℚ} {fr : FetchOutcome} :
    ∀ x ∈ (pageRecover kw d fr).2, x = d := by
  intro x hx
  cases hpb : pageBody kw d fr with
  | error e => simp [pageRecover, hpb] at hx
  | ok r =>
    simp only [pageRecover, hpb] at hx
    exact pageBody_snd hpb x hx

theorem uniformDraw_bounds {u : ℚ} (h0 : 0 ≤ u) (h1 : u ≤ 1) :
    3 / 2 ≤ uniformDraw (3 / 2) 3 u ∧ uniformDraw (3 / 2) 3 u ≤ 3 := by
  unfold uniformDraw
  constructor <;> nlinarith

end Bilibili

theorem bilibili_page_ok (u : ℚ) :
    Bilibili.pageBody "k" u
      (Bilibili.FetchOutcome.resp 200 "x"
        (Except.ok [⟨"t", "a", 0, 0, 0, "b"⟩])) =
      Except.ok ([Bilibili.mkItem "k" ⟨"t", "a", 0, 0, 0, "b"⟩], [u]) := by
  simp only [Bilibili.pageBody]
  rw [if_neg (by decide)]
  rw [if_neg (by decide)]
  simp

/-- C8 counterexample: in the bilibili loop the delay passed to sleep is
`random.uniform(1.5, 3)`, not a fixed constant: a concrete two-page run
whose unit draws are 0 and 1 sleeps 3/2 after the first page and 3 after
the second. -/
theorem c8_counterexample :
    (Bilibili.search_bilibili
        (fun _ => Bilibili.FetchOutcome.resp 200 "x"
          (Except.ok [⟨"t", "a", 0, 0, 0, "b"⟩]))
        (fun p => if p = 1 then 0 else 1) "k" 2).map Prod.snd =
      Except.ok [3 / 2, 3] ∧ ((3 / 2 : ℚ) ≠ 3) := by
  constructor
  · unfold Bilibili.search_bilibili
    rw [Bilibili.searchLoop_ok]
    rw [show List.range' 1 2 = [1, 2] from rfl]
    simp [Bilibili.pageRecover, bilibili_page_ok, Bilibili.uniformDraw,
      Except.map]
  · norm_num

/-- C8 (amended): page requests are sequential, and a sleep follows each
successfully processed page; in xiaohongshu_data.py the delay is the fixed
constant SLEEP_TIME = 1 on every iteration, while in bilibili_data.py it
is `random.uniform(1.5, 3)`, which varies between iterations but always
lies in [1.5, 3]. -/
theorem c8_sleep_delay_values
    (fetch : Nat → Bilibili.FetchOutcome) (us : Nat → ℚ) (kw : String)
    (pages : Nat) (hu : ∀ p, 0 ≤ us p ∧ us p ≤ 1)
    (xfetch : Nat → Xiaohongshu.XFetchOutcome) (xkw : String)
    (xpages : Nat) :
    (∀ r, Bilibili.search_bilibili fetch us kw pages = Except.ok r →
      ∀ d ∈ r.2, 3 / 2 ≤ d ∧ d ≤ 3) ∧
    (Xiaohongshu.SLEEP_TIME = 1 ∧
      ∀ r, Xiaohongshu.fetch_notes xfetch xkw xpages = Except.ok r →
        ∀ d ∈ r.2, d = Xiaohongshu.SLEEP_TIME) := by
  constructor
  · intro r hr d hd
    unfold Bilibili.search_bilibili at hr
    rw [Bilibili.searchLoop_ok] at hr
    injection hr with hr
    subst hr
    simp only [List.nil_append] at hd
    obtain ⟨l, hl, hdl⟩ := List.mem_flatten.1 hd
    obtain ⟨p, hp, rfl⟩ := List.mem_map.1 hl
    have hdu := Bilibili.pageRecover_snd d hdl
    rw [hdu]
    exact Bilibili.uniformDraw_bounds (hu p).1 (hu p).2
  · refine ⟨rfl, ?_⟩
    intro r hr d hd
    unfold Xiaohongshu.fetch_notes at hr
    rw [Xiaohongshu.notesLoop_ok] at hr
    injection hr with hr
    subst hr
    simp only [List.nil_append] at hd
    obtain ⟨l, hl, hdl⟩ := List.mem_flatten.1 hd
    obtain ⟨p, hp, rfl⟩ := List.mem_map.1 hl
    exact Xiaohongshu.noteRecover_snd d hdl

/-- Witness for the amended C8 at a concrete draw function and run. -/
theorem c8_amended_witness :
    (∀ p : Nat, 0 ≤ (fun _ : Nat => (1 / 2 : ℚ)) p ∧
      (fun _ : Nat => (1 / 2 : ℚ)) p ≤ 1) ∧
    (∀ r, Bilibili.search_bilibili
        (fun _ => Bilibili.FetchOutcome.exn "boom")
        (fun _ : Nat => (1 / 2 : ℚ)) "k" 1 = Except.ok r →
      ∀ d ∈ r.2, 3 / 2 ≤ d ∧ d ≤ 3) :=
  ⟨fun _ => ⟨by norm_num, by norm_num⟩,
    (c8_sleep_delay_values (fun _ => Bilibili.FetchOutcome.exn "boom")
      (fun _ : Nat => (1 / 2 : ℚ)) "k" 1
      (fun _ => ⟨by norm_num, by norm_num⟩)
      (fun _ => Xiaohongshu.XFetchOutcome.reqExn "x") "k" 1).1⟩

namespace UserPortrait

/-- Outcome of opening and reading the JSON file at a path. -/
inductive FileOutcome where
  | missing
  | otherExn (msg : String)
  | content (rows : List (List (String × String)))

/-- The Python exceptions distinguished by the two `except` clauses of
`load_data`. -/
inductive PyErr where
  | fileNotFound
  | other (msg : String)

/-- The `open` + `json.load` + `DataFrame` body of `load_data`, run inside
the `try` (user_portrait_analysis.py lines 33-38): raises
FileNotFoundError when the file is missing, some other exception on any
other failure, and otherwise yields the table (one association list of
column-value pairs per row). -/
def loadBody : FileOutcome → Except PyErr (List (List (String × String)))
  | .missing => .error .fileNotFound
  | .otherExn e => .error (.other e)
  | .content rows => .ok rows

/-- Source: user_portrait_analysis.py lines 31-44 (`load_data`): the body
in a `try`, with `except FileNotFoundError` and `except Exception` both
printing and returning `None`. -/
def load_data (fs : String → FileOutcome) (json_path : String) :
    Except PyErr (Option (List (List (String × String)))) :=
  Except.tryCatch
    (do
      let d ← loadBody (fs json_path)
      pure (some d))
    (fun e => match e with
      | .fileNotFound => pure none
      | .other _ => pure none)

end UserPortrait

/-- C9: `load_data` never raises: whatever the file system does, it
returns normally, with the loaded table on success and `None` both when
the file is missing and when any other exception occurs. -/
theorem c9_load_data_total (fs : String → UserPortrait.FileOutcome)
    (json_path : String) :
    UserPortrait.load_data fs json_path = Except.ok
      (match fs json_path with
        | UserPortrait.FileOutcome.content rows => some rows
        | UserPortrait.FileOutcome.missing => none
        | UserPortrait.FileOutcome.otherExn _ => none) := by
  cases h : fs json_path <;>
    simp [UserPortrait.load_data, UserPortrait.loadBody, h, Except.tryCatch,
      Except.bind, bind, pure, Except.pure]
